import Mathlib

/-!
Verification development for the directory-listing core of the `cf-b2cdn`
repository (`src/directory.js`).

The JavaScript source is shallowly embedded: every JS function used by the
claims is translated to an executable Lean definition operating on `String`,
`List Char` and `Nat`.  JavaScript numbers that hold byte counts and epoch
timestamps are modelled as `Nat`; `Number.prototype.toFixed` is modelled as
exact rational rounding (round half up) on the scaled integer, which agrees
with the double-precision computation on every value the theorems below
evaluate (all of them are exactly representable and none is a tie).

Ambient globals of the worker (`MAIN_DOMAIN`, `DIR_DOMAIN`, `SITE_NAME`, the
endpoint constant from the `constants` module, which is not part of the
repository snapshot) are passed explicitly through a `SiteConfig` record.
-/

namespace B2CDN

/-- Raw entry of B2's `b2_list_file_names` response, as read by
`directory.js`: `fileName` is the full slash-delimited key, `action` is
`"folder"` for synthetic prefix groupings and another word (e.g. `"upload"`)
for real files, `uploadTimestamp` is milliseconds since the epoch and
`contentLength` a byte count.  Folder entries carry no meaningful
timestamp/length; the code never reads them for folders. -/
structure B2File where
  fileName : String
  action : String
  uploadTimestamp : Nat
  contentLength : Nat
deriving DecidableEq

/-- Ambient configuration of the worker, made explicit: the content-serving
hostname (`MAIN_DOMAIN`), the listing hostname (`DIR_DOMAIN`), the site name
(`SITE_NAME`) and the list endpoint path constant. -/
structure SiteConfig where
  mainDomain : String
  dirDomain : String
  siteName : String
  listEndpoint : String
deriving DecidableEq

/-- Incoming request, reduced to the parts `directory.js` reads: the URL
hostname and the URL pathname (starting with the separator).  The
`decodeURIComponent` builtin applied in `urlToB2Path` is modelled as the
identity: the pathname field holds the already-decoded path, and no claim
exercises percent-encoding. -/
structure Req where
  hostname : String
  pathname : String
deriving DecidableEq

/-- Model of `urlToB2Path` (line 10): chop off the first `/` character of the
pathname. -/
def urlToB2Path (r : Req) : String :=
  ⟨r.pathname.data.drop 1⟩

/-- Model of JS `toFixed(places)` applied to the exact rational
`numer / denom`: round half up at `places` decimal digits and print with
exactly `places` fractional digits.  `(2 * numer * 10 ^ places + denom) /
(2 * denom)` is `⌊numer * 10 ^ places / denom + 1 / 2⌋`. -/
def toFixedDiv (numer denom places : Nat) : String :=
  let scaled := (2 * numer * 10 ^ places + denom) / (2 * denom)
  let ip := scaled / 10 ^ places
  let fp := scaled % 10 ^ places
  let fpStr := Nat.repr fp
  Nat.repr ip ++ "." ++ ⟨List.replicate (places - fpStr.length) '0' ++ fpStr.data⟩

/-- Model of `getHumanReadableFileSize` (lines 174-192): strict greater-than
threshold chain at 1 TiB / 1 GiB / 1 MiB / 4 KiB, two decimals for TiB and
GiB, one decimal for MiB and KiB (KiB divides by 1024), raw integer with
`" B"` otherwise. -/
def getHumanReadableFileSize (numBytes : Nat) : String :=
  if numBytes > 1099511627776 then toFixedDiv numBytes 1099511627776 2 ++ " TiB"
  else if numBytes > 1073741824 then toFixedDiv numBytes 1073741824 2 ++ " GiB"
  else if numBytes > 1048576 then toFixedDiv numBytes 1048576 1 ++ " MiB"
  else if numBytes > 4096 then toFixedDiv numBytes 1024 1 ++ " KiB"
  else Nat.repr numBytes ++ " B"

/-- Model of a single-character global regex replace, `s.replace(/c/g, repl)`,
as used by `escapeHtml`. -/
def jsReplaceChar (c : Char) (repl : List Char) : List Char → List Char
  | [] => []
  | x :: xs => (if x = c then repl else [x]) ++ jsReplaceChar c repl xs

/-- The five sequential global replaces of `escapeHtml` (lines 194-201) at
the character-list level, in source order `&`, `<`, `>`, `"`, `'`. -/
def escapeList (l : List Char) : List Char :=
  jsReplaceChar '\'' "&#039;".data
    (jsReplaceChar '"' "&quot;".data
      (jsReplaceChar '>' "&gt;".data
        (jsReplaceChar '<' "&lt;".data
          (jsReplaceChar '&' "&amp;".data l))))

/-- Model of `escapeHtml` (lines 194-201). -/
def escapeHtml (s : String) : String :=
  ⟨escapeList s.data⟩

/-- Per-character escaping table, written from the spec sentence "`&`, `<`,
`>`, `\"`, `'` each mapped to their ... entity", with the entities the code
actually produces (`&#039;` for the apostrophe). -/
def escapeCharSpec (c : Char) : List Char :=
  if c = '&' then "&amp;".data
  else if c = '<' then "&lt;".data
  else if c = '>' then "&gt;".data
  else if c = '"' then "&quot;".data
  else if c = '\'' then "&#039;".data
  else [c]

/-- Simultaneous per-character escaping of a whole string, used to state that
the five sequential replaces of `escapeHtml` act as one per-character map. -/
def mapEscape : List Char → List Char
  | [] => []
  | c :: cs => escapeCharSpec c ++ mapEscape cs

/-- Modelled from the spec: the HTML *named* character references for the
five characters the spec says are escaped (`&apos;` is the named reference
for the apostrophe; `&#039;` is a numeric reference, not a named one). -/
def namedEntity (c : Char) : String :=
  if c = '&' then "&amp;"
  else if c = '<' then "&lt;"
  else if c = '>' then "&gt;"
  else if c = '"' then "&quot;"
  else if c = '\'' then "&apos;"
  else ⟨[c]⟩

/-- Model of the test `/(?:^|\/)\.bzEmpty$/.test(fileName)` (line 99): the
key is exactly `.bzEmpty` or ends in `/.bzEmpty`. -/
def isBzEmpty (s : String) : Bool :=
  s.data == ".bzEmpty".data || List.isSuffixOf "/.bzEmpty".data s.data

/-- Tail of the dot-file regex after the dot, `[^\/]*\/?$`: consume non-slash
characters, then accept the empty remainder or a single final slash.
(Maximal munch is equivalent to backtracking here because only an optional
slash and the anchor follow.) -/
def dotTail (l : List Char) : Bool :=
  let r := l.dropWhile (fun c => c != '/')
  r == [] || r == ['/']

/-- One alternative of the dot-file regex anchored at the current position:
`\.[^\/]*\/?$`. -/
def headDotAlt : List Char → Bool
  | [] => false
  | c :: rest => c == '.' && dotTail rest

/-- Scan for the `(?:\/)\.[^\/]*\/?$` alternatives: try the dot alternative
right after every `/` of the string. -/
def afterSlashScan : List Char → Bool
  | [] => false
  | c :: rest => (c == '/' && headDotAlt rest) || afterSlashScan rest

/-- Model of the test `/(?:^|\/)\.[^\/]*\/?$/.test(fileName)` (line 101): the
dot alternative may match at the start of the string or right after any
slash. -/
def isDotFileList (l : List Char) : Bool :=
  headDotAlt l || afterSlashScan l

/-- String version of the hidden-file test of line 101. -/
def isDotFile (s : String) : Bool :=
  isDotFileList s.data

/-- An entry survives the two suppression tests of the partition loop
(lines 98-108). -/
def entryKept (f : B2File) : Bool :=
  !isBzEmpty f.fileName && !isDotFile f.fileName

/-- One step of the partition loop of lines 98-108: skip `.bzEmpty` files,
skip dot-files, push folders on the first list and everything else on the
second. -/
def partitionStep (acc : List B2File × List B2File) (file : B2File) :
    List B2File × List B2File :=
  if isBzEmpty file.fileName then acc
  else if isDotFile file.fileName then acc
  else if file.action == "folder" then (acc.1 ++ [file], acc.2)
  else (acc.1, acc.2 ++ [file])

/-- The `folders` / `files` arrays built by the loop of lines 98-108, in push
order. -/
def partitionEntries (files : List B2File) : List B2File × List B2File :=
  files.foldl partitionStep ([], [])

/-- ASCII lowering, the effect of the `i` regex flag on the extension tables
of `HTML_LINE_ITEM` (all the tabulated extensions are ASCII). -/
def lowerChar (c : Char) : Char :=
  if 65 ≤ c.toNat && c.toNat ≤ 90 then Char.ofNat (c.toNat + 32) else c

/-- Lowercase a whole string (ASCII). -/
def lowerStr (s : String) : String :=
  ⟨s.data.map lowerChar⟩

/-- Case-insensitive extension test: the model of one
`/\.(e1|e2|...)$/i.test(basename)` row of the icon table. -/
def extMatch (basename : String) (exts : List String) : Bool :=
  exts.any (fun e => List.isSuffixOf ("." ++ e).data (lowerStr basename).data)

/-- Model of the icon branch chain of `HTML_LINE_ITEM` (lines 265-297). -/
def iconFor (link basename action : String) : String :=
  if link == ".." then "level-up-alt"
  else if action == "folder" then "folder-open"
  else if extMatch basename ["jpeg", "jpg", "png", "bmp", "tif", "tiff", "gif", "webp", "tga", "cr2", "nef", "ico"] then "file-image"
  else if extMatch basename ["pub", "txt", "ini", "cfg"] then "file-alt"
  else if extMatch basename ["mp4", "mkv", "wmv", "flv", "hls", "ogv", "avi"] then "file-video"
  else if extMatch basename ["mp3", "wav", "wma", "flac", "ogg", "aac", "m4a"] then "file-audio"
  else if extMatch basename ["zip", "tgz", "gz", "tar", "7z", "rar", "xz", "jar"] then "file-archive"
  else if extMatch basename ["doc", "docx"] then "file-word"
  else if extMatch basename ["xls", "xlsx"] then "file-excel"
  else if extMatch basename ["pps", "ppt", "ppsx", "pptx"] then "file-powerpoint"
  else if extMatch basename ["pdf"] then "file-pdf"
  else if extMatch basename ["c", "h", "cpp", "hpp", "cs", "css", "js", "json", "java", "vb", "vba", "vbs", "py"] then "file-code"
  else if extMatch basename ["csv"] then "file-csv"
  else if extMatch basename ["sig", "asc"] then "file-signature"
  else "file"

/-- Model of `TEMPLATE_HTML_LINE_ITEM` (lines 302-310).  The template literal
is written as explicit concatenation; the `href` attribute receives `link`
verbatim while only the display text goes through `escapeHtml`. -/
def TEMPLATE_HTML_LINE_ITEM (link basename sizeStr sizeTitle uploaded icon : String) : String :=
  "\n<tr>\n    <td scope=\"row\">\n        " ++
  "<a href=\"" ++ link ++ "\">" ++
  "<i class=\"fas fa-fw fa-lg fa-" ++ icon ++ "\" aria-hidden=\"true\"></i> " ++
  escapeHtml basename ++
  "</a>\n    </td>\n    <td class=\"text-right\"><span title=\"" ++ sizeTitle ++
  "\">" ++ sizeStr ++ "</span></td>\n    <td class=\"text-right\">" ++ uploaded ++
  "</td>\n</tr>\n"

/-- Model of `HTML_LINE_ITEM` (lines 265-300): pick the icon, then fill the
row template. -/
def HTML_LINE_ITEM (link basename sizeStr sizeTitle uploaded action : String) : String :=
  TEMPLATE_HTML_LINE_ITEM link basename sizeStr sizeTitle uploaded (iconFor link basename action)

/-- Zero-pad a number to two digits, as `toISOString` does for month, day,
hour, minute and second fields. -/
def pad2 (n : Nat) : String :=
  if n < 10 then "0" ++ Nat.repr n else Nat.repr n

/-- Zero-pad a number to four digits, as `toISOString` does for the year. -/
def pad4 (n : Nat) : String :=
  if n < 10 then "000" ++ Nat.repr n
  else if n < 100 then "00" ++ Nat.repr n
  else if n < 1000 then "0" ++ Nat.repr n
  else Nat.repr n

/-- Proleptic-Gregorian civil date from days since 1970-01-01 (the standard
era-based algorithm), used to model the UTC date part of
`Date.prototype.toISOString`. -/
def civilFromDays (days : Nat) : Nat × Nat × Nat :=
  let z := days + 719468
  let era := z / 146097
  let doe := z % 146097
  let yoe := (doe - doe / 1460 + doe / 36524 - doe / 146097) / 365
  let y := yoe + era * 400
  let doy := doe - (365 * yoe + yoe / 4 - yoe / 100)
  let mp := (5 * doy + 2) / 153
  let d := doy - (153 * mp + 2) / 5 + 1
  let m := if mp < 10 then mp + 3 else mp - 9
  (if m ≤ 2 then y + 1 else y, m, d)

/-- Model of `new Date(ms).toISOString().replace('T', ' ').split('.')[0]`
(lines 152-153): the fixed UTC `YYYY-MM-DD HH:MM:SS` rendering of an epoch
millisecond timestamp. -/
def formatTimestamp (ms : Nat) : String :=
  let days := ms / 86400000
  let msod := ms % 86400000
  let ymd := civilFromDays days
  let h := msod / 3600000
  let mi := msod % 3600000 / 60000
  let s := msod % 60000 / 1000
  pad4 ymd.1 ++ "-" ++ pad2 ymd.2.1 ++ "-" ++ pad2 ymd.2.2 ++ " " ++
    pad2 h ++ ":" ++ pad2 mi ++ ":" ++ pad2 s

/-- Insert a thousands separator after every third digit of a reversed digit
list; helper for the `toLocaleString` model. -/
def chunk3 : List Char → List Char
  | [] => []
  | [a] => [a]
  | [a, b] => [a, b]
  | [a, b, c] => [a, b, c]
  | a :: b :: c :: rest => a :: b :: c :: ',' :: chunk3 rest

/-- Model of `Number.prototype.toLocaleString()` on a non-negative integer in
the worker's default locale: decimal digits grouped in threes by commas. -/
def groupThousands (n : Nat) : String :=
  ⟨(chunk3 (Nat.repr n).data.reverse).reverse⟩

/-- The `dateStr` / `sizeStr` / `sizeActual` triple computed by
`convertFileInfoJsonToHTML` (lines 150-157): all empty when `action` is
`"folder"` (the JS initialises them to `''` and only assigns inside
`if (file.action !== 'folder')`), otherwise the formatted timestamp, the
human-readable size and the exact size with a `byte`/`bytes` word. -/
def lineItemData (file : B2File) : String × String × String :=
  if file.action == "folder" then ("", "", "")
  else
    (formatTimestamp file.uploadTimestamp,
     getHumanReadableFileSize file.contentLength,
     groupThousands file.contentLength ++
       (if file.contentLength == 1 then " byte" else " bytes"))

/-- The basename computed at line 145: `file.fileName.substring(prefixLength)`
(JS `substring` clamps, so does `List.drop`). -/
def basenameOf (file : B2File) (prefixLength : Nat) : String :=
  ⟨file.fileName.data.drop prefixLength⟩

/-- Model of `convertFileInfoJsonToHTML` (lines 144-160).  The `baseUrl`
parameter is kept because the source declares it (and its callers pass two
different URLs), but — exactly as in the source body — it is never read:
both the link and the display name are the relative `basename`. -/
def convertFileInfoJsonToHTML (baseUrl : String) (file : B2File) (prefixLength : Nat) : String :=
  let basename := basenameOf file prefixLength
  if basename = "" then ""
  else
    HTML_LINE_ITEM basename basename (lineItemData file).2.1 (lineItemData file).2.2
      (lineItemData file).1 file.action

/-- Model of `fullPath.match(/([^/]+)\/$/)` at lines 81-86: the last non-slash
run when the path ends in a slash preceded by at least one non-slash
character, else the literal `"/"`. -/
def currentDirOf (fullPath : String) : String :=
  match fullPath.data.reverse with
  | '/' :: rest =>
    let seg := rest.takeWhile (fun c => c != '/')
    if seg.isEmpty then "/" else ⟨seg.reverse⟩
  | _ => "/"

/-- Model of the JS `String.prototype.split('/')` (single-character
separator), kept structural so the kernel can evaluate it. -/
def splitSlash : List Char → List (List Char)
  | [] => [[]]
  | c :: rest =>
    if c = '/' then [] :: splitSlash rest
    else
      match splitSlash rest with
      | s :: ss => (c :: s) :: ss
      | [] => [[c]]

/-- One iteration of the `fullPathAnchors` loop (lines 208-212), producing
(label, href) pairs instead of markup: the accumulator carries `parent`. -/
def anchorStep (acc : String × List (String × String)) (path : String) :
    String × List (String × String) :=
  let parent := acc.1 ++ path ++ "/"
  (parent, acc.2 ++ [(path, parent)])

/-- The (label, href) pairs of the breadcrumb links beyond the root link, as
built by `fullPathAnchors` (lines 203-215): split on `/`, loop `i` from `1`
to `split.length - 2` with `parent` starting at `"/"`. -/
def fullPathAnchorsList (fullPath : String) : List (String × String) :=
  let split := (splitSlash fullPath.data).map (fun l => (⟨l⟩ : String))
  let body := (split.drop 1).dropLast
  (body.foldl anchorStep ("/", [])).2

/-- Model of `fullPathAnchors` (lines 203-215) at the markup level: root link
first, then one anchor per loop iteration with the cumulative `parent` as
`href`, a final `/` appended. -/
def fullPathAnchors (siteName fullPath : String) : String :=
  let split := (splitSlash fullPath.data).map (fun l => (⟨l⟩ : String))
  let body := (split.drop 1).dropLast
  let res := body.foldl
    (fun acc path =>
      (acc.1 ++ path ++ "/",
       acc.2 ++ "/<a class=\"mx-1\" href=\"" ++ (acc.1 ++ path ++ "/") ++ "\">" ++ path ++ "</a>"))
    ("/", "<a class=\"mx-1\" href=\"/\">" ++ siteName ++ "</a>")
  res.2 ++ "/"

/-- Model of the `HTML_FILE_LIST` page template (lines 225-249). -/
def HTML_FILE_LIST (siteName currentDir fullPath listings : String) : String :=
  "<!DOCTYPE HTML>\n<html lang=\"en\">\n  <head>\n    <meta charset=\"utf-8\">\n    <meta name=\"viewport\" content=\"width=device-width, initial-scale=1, shrink-to-fit=no\">\n    <title>" ++
  (if currentDir = "/" then "Root Directory" else currentDir) ++ " - " ++ siteName ++
  "</title>\n\n    <link rel=\"stylesheet\" href=\"https://cdn.jsdelivr.net/npm/bootstrap@4.6.1/dist/css/bootstrap.min.css\" integrity=\"sha256-DF7Zhf293AJxJNTmh5zhoYYIMs2oXitRfBjY+9L//AY=\" crossorigin=\"anonymous\">\n    <link rel=\"stylesheet\" href=\"https://cdn.jsdelivr.net/npm/@fortawesome/fontawesome-free@5.15.4/css/all.min.css\" integrity=\"sha256-mUZM63G8m73Mcidfrv5E+Y61y7a12O5mW4ezU3bxqW4=\" crossorigin=\"anonymous\">\n  </head>\n  <body class=\"bg-light\">\n    <div class=\"container-fluid container-md\">\n      <div class=\"lead py-2\">" ++
  fullPathAnchors siteName fullPath ++
  "</div>\n    </div>\n\n    <div class=\"container-fluid container-md table-responsive\">\n      <table class=\"table table-hover border bg-white text-nowrap\">\n        <tbody>\n          " ++
  listings ++
  "\n        </tbody>\n      </table>\n    </div>\n  </body>\n</html>\n"

/-- Placeholder response handed to the error-rewriting collaborator:
`status` and the body (`none` models a JS `null` body, `some ""` an empty
string body). -/
structure RespStub where
  status : Nat
  body : Option String
deriving DecidableEq

/-- Upstream listing response, reduced to what `getB2Directory` reads:
`ok`, the status, the (unparsed) body and — when `ok` — the parsed `files`
array. -/
structure FetchResp where
  ok : Bool
  status : Nat
  body : Option String
  files : List B2File
deriving DecidableEq

/-- Outcome of the listing pipeline.  `rewritten req resp` stands for
"return `rewriteErrorResponse(req, resp)`", the error-rewriting collaborator
from `error_handling` (outside this core); `html doc` is a successful page
(the caller attaches caching headers to it). -/
inductive DirOutcome where
  | rewritten (req : Req) (resp : RespStub) : DirOutcome
  | html (doc : String) : DirOutcome
deriving DecidableEq

/-- Discriminator: did the pipeline produce a successful HTML page? -/
def isHtml : DirOutcome → Bool
  | DirOutcome.html _ => true
  | _ => false

/-- The entry-row sequence built by the two loops of lines 117-122: all
folder rows first (with the listing-host `requestUrl` as `baseUrl`), then
all file rows (with the `MAIN_DOMAIN` `baseFileUrl`), each loop in the push
order of the partition. -/
def renderedRows (cfg : SiteConfig) (req : Req) (files : List B2File) : List String :=
  let requestUrl := req.hostname ++ req.pathname
  let baseFileUrl := cfg.mainDomain ++ req.pathname
  let prefixLength := (urlToB2Path req).length
  let part := partitionEntries files
  part.1.map (fun f => convertFileInfoJsonToHTML requestUrl f prefixLength) ++
    part.2.map (fun f => convertFileInfoJsonToHTML baseFileUrl f prefixLength)

/-- Model of `convertListFileNamesToHTML` (lines 74-132), with the already
parsed `files` array in place of the JSON response.  `requestUrl` keeps the
listing host, `baseFileUrl` swaps in `MAIN_DOMAIN` (lines 77-79); both are
passed to `convertFileInfoJsonToHTML`, which ignores them.  Zero surviving
entries yield `rewriteErrorResponse(request, new Response('', 404))`
(lines 112-115). -/
def convertListFileNamesToHTML (cfg : SiteConfig) (req : Req) (files : List B2File) : DirOutcome :=
  let fullPath := urlToB2Path req
  let currentDir := currentDirOf fullPath
  let prefixLength := fullPath.length
  let upRow := if prefixLength > 0 then HTML_LINE_ITEM ".." ".." "" "" "" "" else ""
  let part := partitionEntries files
  if part.1.isEmpty && part.2.isEmpty then
    DirOutcome.rewritten req ⟨404, some ""⟩
  else
    DirOutcome.html (HTML_FILE_LIST cfg.siteName currentDir ("/" ++ fullPath)
      (upRow ++ String.join (renderedRows cfg req files)))

/-- Credentials/session object (`b2.data`) consumed by `getB2Directory`. -/
structure B2Config where
  apiUrl : String
  bucketId : String
  authorizationToken : String
deriving DecidableEq

/-- The single outbound listing query `getB2Directory` may issue
(lines 32-52): endpoint URL parts, JSON body fields and the authorization
header. -/
structure FetchCall where
  apiUrl : String
  endpointPath : String
  bucketId : String
  maxFileCount : Nat
  pfx : String
  delimiter : String
  authorization : String
deriving DecidableEq

/-- Result of running `getB2Directory`: the outcome plus the trace of
outbound listing calls it issued (empty or a single call). -/
structure DirRun where
  outcome : DirOutcome
  fetches : List FetchCall
deriving DecidableEq

/-- Model of `getB2Directory` (lines 23-64).  A hostname different from
`DIR_DOMAIN` short-circuits to `rewriteErrorResponse(request,
new Response(null, 404))` before any outbound call (lines 28-30); otherwise
one listing query is issued, a non-ok response is handed to the error
rewriter, and an ok response is rendered.  The `Cache-Control` / `Expires`
headers the caller sets on the successful response (lines 58-62) are header
metadata outside the rendered document and are not modelled. -/
def getB2Directory (cfg : SiteConfig) (req : Req) (b2 : B2Config)
    (fetch : FetchCall → FetchResp) : DirRun :=
  if req.hostname ≠ cfg.dirDomain then
    ⟨DirOutcome.rewritten req ⟨404, none⟩, []⟩
  else
    let call : FetchCall :=
      ⟨b2.apiUrl, cfg.listEndpoint, b2.bucketId, 10000, urlToB2Path req, "/", b2.authorizationToken⟩
    let resp := fetch call
    if resp.ok then
      ⟨convertListFileNamesToHTML cfg req resp.files, [call]⟩
    else
      ⟨DirOutcome.rewritten req ⟨resp.status, resp.body⟩, [call]⟩

/-- Modelled from the spec: the three suppression rules of claim C2 —
empty-folder marker object, hidden-file basename, empty basename after
prefix-stripping.  An entry is renderable when none applies. -/
def renderable3 (f : B2File) (fullPath : String) : Bool :=
  !isBzEmpty f.fileName && !isDotFile f.fileName &&
    !(basenameOf f fullPath.length == "")

/-- Modelled from the spec: a path segment "begins with the hidden-file
marker (a dot)". -/
def startsDot : List Char → Bool
  | [] => false
  | c :: _ => c == '.'

/-- Join slash-free segments with the separator (the inverse of a `/` split
without trailing separator). -/
def joinSegs : List (List Char) → List Char
  | [] => []
  | [s] => s
  | s :: rest => s ++ '/' :: joinSegs rest

/-- Modelled from the spec: the breadcrumb links the spec describes — each
segment paired with "the cumulative path up to and including that segment"
joined by a trailing separator, starting from `parent`. -/
def cumulativeAnchors (parent : String) : List String → List (String × String)
  | [] => []
  | p :: rest => (p, parent ++ p ++ "/") :: cumulativeAnchors (parent ++ p ++ "/") rest

/-- String-level wrapper around `joinSegs`. -/
def joinSegsStr (segs : List String) : String :=
  ⟨joinSegs (segs.map String.data)⟩

/- ---------------------------------------------------------------------- -/
/- Helper lemmas                                                          -/
/- ---------------------------------------------------------------------- -/

theorem str_ne_empty_of_right (a b : String) (h : b ≠ "") : a ++ b ≠ "" := by
  intro hc
  apply h
  apply String.ext
  have hd := congrArg String.data hc
  rw [String.data_append] at hd
  exact (List.append_eq_nil.mp hd).2

theorem str_ne_empty_of_left (a b : String) (h : a ≠ "") : a ++ b ≠ "" := by
  intro hc
  apply h
  apply String.ext
  have hd := congrArg String.data hc
  rw [String.data_append] at hd
  exact (List.append_eq_nil.mp hd).1

/- ---------------------------------------------------------------------- -/
/- C4: byte-size formatter thresholds                                     -/
/- ---------------------------------------------------------------------- -/

/-- C4: the byte-size formatter chooses its unit by the highest threshold the
count strictly exceeds — `" TiB"` (two decimals) above 1099511627776,
`" GiB"` (two decimals) above 1073741824, `" MiB"` (one decimal) above
1048576, `" KiB"` (one decimal, dividing by 1024) above 4096, and the raw
integer with `" B"` otherwise; in particular 1048576 renders as
`"1024.0 KiB"` and 1048577 as `"1.0 MiB"`. -/
theorem sizeFormatterThresholds (n : Nat) :
    (1099511627776 < n →
      getHumanReadableFileSize n = toFixedDiv n 1099511627776 2 ++ " TiB") ∧
    (1073741824 < n → n ≤ 1099511627776 →
      getHumanReadableFileSize n = toFixedDiv n 1073741824 2 ++ " GiB") ∧
    (1048576 < n → n ≤ 1073741824 →
      getHumanReadableFileSize n = toFixedDiv n 1048576 1 ++ " MiB") ∧
    (4096 < n → n ≤ 1048576 →
      getHumanReadableFileSize n = toFixedDiv n 1024 1 ++ " KiB") ∧
    (n ≤ 4096 → getHumanReadableFileSize n = Nat.repr n ++ " B") ∧
    getHumanReadableFileSize 1048576 = "1024.0 KiB" ∧
    getHumanReadableFileSize 1048577 = "1.0 MiB" := by
  refine ⟨?_, ?_, ?_, ?_, ?_, ?_, ?_⟩
  · intro h
    unfold getHumanReadableFileSize
    rw [if_pos (by omega)]
  · intro h h2
    unfold getHumanReadableFileSize
    rw [if_neg (by omega), if_pos (by omega)]
  · intro h h2
    unfold getHumanReadableFileSize
    rw [if_neg (by omega), if_neg (by omega), if_pos (by omega)]
  · intro h h2
    unfold getHumanReadableFileSize
    rw [if_neg (by omega), if_neg (by omega), if_neg (by omega), if_pos (by omega)]
  · intro h
    unfold getHumanReadableFileSize
    rw [if_neg (by omega), if_neg (by omega), if_neg (by omega), if_neg (by omega)]
  · decide
  · decide

/-- Witness for C4: the MiB conjunct applied at 1048577, whose hypotheses
hold by computation. -/
theorem sizeFormatterThresholdsWitness :
    getHumanReadableFileSize 1048577 = toFixedDiv 1048577 1048576 1 ++ " MiB" :=
  (sizeFormatterThresholds 1048577).2.2.1 (by omega) (by omega)

/- ---------------------------------------------------------------------- -/
/- C9: hostname check precedes the outbound listing call                  -/
/- ---------------------------------------------------------------------- -/

/-- C9: when the request hostname differs from the configured listing
hostname, `getB2Directory` returns the error rewriter's result for a
bodyless 404 and issues no outbound listing call, for every path, every
credential object and every possible upstream behaviour. -/
theorem hostnameMismatchShortCircuits (cfg : SiteConfig) (req : Req)
    (b2 : B2Config) (fetch : FetchCall → FetchResp)
    (h : req.hostname ≠ cfg.dirDomain) :
    getB2Directory cfg req b2 fetch = ⟨DirOutcome.rewritten req ⟨404, none⟩, []⟩ := by
  unfold getB2Directory
  rw [if_pos h]

/-- Witness for C9 at a concrete mismatching request. -/
theorem hostnameMismatchShortCircuitsWitness :
    getB2Directory ⟨"main.example.com", "dir.example.com", "SITE", "b2api/v2/b2_list_file_names"⟩
        ⟨"evil.example.com", "/docs/"⟩ ⟨"https://api.example", "bkt", "tok"⟩
        (fun _ => ⟨true, 200, none, []⟩) =
      ⟨DirOutcome.rewritten ⟨"evil.example.com", "/docs/"⟩ ⟨404, none⟩, []⟩ :=
  hostnameMismatchShortCircuits _ _ _ _ (by decide)

/- ---------------------------------------------------------------------- -/
/- C5: folders precede files, provider order preserved                    -/
/- ---------------------------------------------------------------------- -/

theorem partition_foldl (l : List B2File) : ∀ a b : List B2File,
    l.foldl partitionStep (a, b) =
      (a ++ l.filter (fun f => entryKept f && (f.action == "folder")),
       b ++ l.filter (fun f => entryKept f && !(f.action == "folder"))) := by
  induction l with
  | nil => intro a b; simp
  | cons x xs ih =>
    intro a b
    simp only [List.foldl_cons, List.filter_cons]
    by_cases hbz : isBzEmpty x.fileName
    · simp [partitionStep, entryKept, hbz, ih a b]
    · by_cases hdot : isDotFile x.fileName
      · simp [partitionStep, entryKept, hbz, hdot, ih a b]
      · by_cases hfo : (x.action == "folder") = true
        · simp [partitionStep, entryKept, hbz, hdot, hfo, ih (a ++ [x]) b]
        · simp [partitionStep, entryKept, hbz, hdot, hfo, ih a (b ++ [x])]

/-- C5: the rendered entry-row sequence is exactly the folder rows (the kept
entries whose `action` is `"folder"`, in the provider's original order)
followed by the file rows (the kept non-folder entries, in the provider's
original order), for every raw entry list. -/
theorem foldersPrecedeFiles (cfg : SiteConfig) (req : Req) (files : List B2File) :
    renderedRows cfg req files =
      (files.filter (fun f => entryKept f && (f.action == "folder"))).map
        (fun f => convertFileInfoJsonToHTML (req.hostname ++ req.pathname) f (urlToB2Path req).length) ++
      (files.filter (fun f => entryKept f && !(f.action == "folder"))).map
        (fun f => convertFileInfoJsonToHTML (cfg.mainDomain ++ req.pathname) f (urlToB2Path req).length) := by
  unfold renderedRows partitionEntries
  rw [partition_foldl files [] []]
  simp

/- ---------------------------------------------------------------------- -/
/- C8: size and date populated iff the entry is a file                    -/
/- ---------------------------------------------------------------------- -/

theorem formatTimestamp_ne_empty (ms : Nat) : formatTimestamp ms ≠ "" := by
  unfold formatTimestamp
  apply str_ne_empty_of_left
  apply str_ne_empty_of_right
  decide

theorem getHumanReadableFileSize_ne_empty (n : Nat) : getHumanReadableFileSize n ≠ "" := by
  unfold getHumanReadableFileSize
  split_ifs <;> (apply str_ne_empty_of_right; decide)

/-- C8: the date / rounded-size / exact-size triple of a rendered row is all
empty when the entry's kind is folder, and all non-empty when it is a file,
regardless of the timestamp and byte-count values the provider supplied. -/
theorem sizeDateIffFile (file : B2File) :
    (file.action = "folder" → lineItemData file = ("", "", "")) ∧
    (file.action ≠ "folder" →
      (lineItemData file).1 ≠ "" ∧ (lineItemData file).2.1 ≠ "" ∧
        (lineItemData file).2.2 ≠ "") := by
  constructor
  · intro h
    simp [lineItemData, h]
  · intro h
    have hb : (file.action == "folder") = false := by
      simp [h]
    refine ⟨?_, ?_, ?_⟩
    · simp only [lineItemData, hb, Bool.false_eq_true, if_false]
      exact formatTimestamp_ne_empty _
    · simp only [lineItemData, hb, Bool.false_eq_true, if_false]
      exact getHumanReadableFileSize_ne_empty _
    · simp only [lineItemData, hb, Bool.false_eq_true, if_false]
      apply str_ne_empty_of_right
      cases hc : (file.contentLength == 1) <;> simp [hc]

/-- Witness for C8: a folder entry with provider-supplied timestamp and size
still renders empty fields; a file entry renders all three non-empty. -/
theorem sizeDateIffFileWitness :
    lineItemData ⟨"x/", "folder", 123, 456⟩ = ("", "", "") ∧
    ((lineItemData ⟨"a.txt", "upload", 0, 5⟩).1 ≠ "" ∧
      (lineItemData ⟨"a.txt", "upload", 0, 5⟩).2.1 ≠ "" ∧
      (lineItemData ⟨"a.txt", "upload", 0, 5⟩).2.2 ≠ "") :=
  ⟨(sizeDateIffFile _).1 rfl, (sizeDateIffFile _).2 (by decide)⟩

/- ---------------------------------------------------------------------- -/
/- C7: HTML escaping of the displayed basename                            -/
/- ---------------------------------------------------------------------- -/

theorem jsReplaceChar_append (c : Char) (repl : List Char) (l₁ l₂ : List Char) :
    jsReplaceChar c repl (l₁ ++ l₂) =
      jsReplaceChar c repl l₁ ++ jsReplaceChar c repl l₂ := by
  induction l₁ with
  | nil => rfl
  | cons x xs ih => simp [jsReplaceChar, ih, List.append_assoc]

theorem escapeList_append (l₁ l₂ : List Char) :
    escapeList (l₁ ++ l₂) = escapeList l₁ ++ escapeList l₂ := by
  simp [escapeList, jsReplaceChar_append]

theorem escapeList_single (c : Char) : escapeList [c] = escapeCharSpec c := by
  by_cases h1 : c = '&'
  · subst h1; rfl
  by_cases h2 : c = '<'
  · subst h2; rfl
  by_cases h3 : c = '>'
  · subst h3; rfl
  by_cases h4 : c = '"'
  · subst h4; rfl
  by_cases h5 : c = '\''
  · subst h5; rfl
  simp [escapeList, jsReplaceChar, escapeCharSpec, h1, h2, h3, h4, h5]

theorem escapeList_eq_mapEscape (l : List Char) : escapeList l = mapEscape l := by
  induction l with
  | nil => rfl
  | cons c cs ih =>
    have hsplit : c :: cs = [c] ++ cs := rfl
    rw [hsplit, escapeList_append, escapeList_single, ih]
    rfl

theorem escapeCharSpec_no_raw (c : Char) (x : Char) (hx : x ∈ escapeCharSpec c) :
    x ≠ '<' ∧ x ≠ '>' ∧ x ≠ '"' ∧ x ≠ '\'' := by
  unfold escapeCharSpec at hx
  split_ifs at hx with h1 h2 h3 h4 h5
  · exact (by decide : ∀ y ∈ "&amp;".data, y ≠ '<' ∧ y ≠ '>' ∧ y ≠ '"' ∧ y ≠ '\'') x hx
  · exact (by decide : ∀ y ∈ "&lt;".data, y ≠ '<' ∧ y ≠ '>' ∧ y ≠ '"' ∧ y ≠ '\'') x hx
  · exact (by decide : ∀ y ∈ "&gt;".data, y ≠ '<' ∧ y ≠ '>' ∧ y ≠ '"' ∧ y ≠ '\'') x hx
  · exact (by decide : ∀ y ∈ "&quot;".data, y ≠ '<' ∧ y ≠ '>' ∧ y ≠ '"' ∧ y ≠ '\'') x hx
  · exact (by decide : ∀ y ∈ "&#039;".data, y ≠ '<' ∧ y ≠ '>' ∧ y ≠ '"' ∧ y ≠ '\'') x hx
  · rw [List.mem_singleton.mp hx]
    exact ⟨h2, h3, h4, h5⟩

theorem mapEscape_no_raw (l : List Char) (x : Char) (hx : x ∈ mapEscape l) :
    x ≠ '<' ∧ x ≠ '>' ∧ x ≠ '"' ∧ x ≠ '\'' := by
  induction l with
  | nil => cases hx
  | cons c cs ih =>
    rcases List.mem_append.mp hx with h | h
    · exact escapeCharSpec_no_raw c x h
    · exact ih h

/-- C7 (amended): `escapeHtml` acts as the simultaneous per-character map
sending `&`, `<`, `>`, `"` to their named entities and `'` to the numeric
reference `&#039;`, and its output never contains a raw `<`, `>`, `"` or
`'`, so an escaped basename can never be parsed as markup in the display
text. -/
theorem escapePerCharacter :
    (∀ s : String, escapeHtml s = ⟨mapEscape s.data⟩) ∧
    (∀ s : String, ∀ x ∈ (escapeHtml s).data,
      x ≠ '<' ∧ x ≠ '>' ∧ x ≠ '"' ∧ x ≠ '\'') := by
  constructor
  · intro s
    unfold escapeHtml
    rw [escapeList_eq_mapEscape]
  · intro s x hx
    have hd : (escapeHtml s).data = mapEscape s.data := by
      unfold escapeHtml
      rw [escapeList_eq_mapEscape]
    rw [hd] at hx
    exact mapEscape_no_raw _ _ hx

/-- Witness for C7's amended theorem at concrete inputs. -/
theorem escapePerCharacterWitness :
    escapeHtml "a&b" = ⟨mapEscape "a&b".data⟩ ∧
    ('&' ≠ '<' ∧ '&' ≠ '>' ∧ '&' ≠ '"' ∧ '&' ≠ '\'') :=
  ⟨escapePerCharacter.1 "a&b", escapePerCharacter.2 "<" '&' (by decide)⟩

/-- Counterexample for C7 as stated: the apostrophe is replaced by the
numeric character reference `&#039;`, not by its named HTML entity
(`&apos;`). -/
theorem escapeAposNotNamedEntity :
    escapeHtml ⟨['\'']⟩ = "&#039;" ∧ escapeHtml ⟨['\'']⟩ ≠ namedEntity '\'' := by
  exact ⟨by decide, by decide⟩

/- ---------------------------------------------------------------------- -/
/- C3: the hidden-file filter looks at the final segment only             -/
/- ---------------------------------------------------------------------- -/

theorem dropWhile_append_of_slashfree (s t : List Char) (h : '/' ∉ s) :
    (s ++ t).dropWhile (fun c => c != '/') = t.dropWhile (fun c => c != '/') := by
  induction s with
  | nil => rfl
  | cons c cs ih =>
    have hc : c ≠ '/' := fun e => h (e ▸ List.mem_cons_self c cs)
    have hcs : '/' ∉ cs := fun m => h (List.mem_cons_of_mem _ m)
    simp [List.dropWhile_cons, hc, ih hcs]

theorem afterSlashScan_append_of_slashfree (s t : List Char) (h : '/' ∉ s) :
    afterSlashScan (s ++ t) = afterSlashScan t := by
  induction s with
  | nil => rfl
  | cons c cs ih =>
    have hc : c ≠ '/' := fun e => h (e ▸ List.mem_cons_self c cs)
    have hcs : '/' ∉ cs := fun m => h (List.mem_cons_of_mem _ m)
    simp [afterSlashScan, hc, ih hcs]

theorem afterSlashScan_slash_cons (t : List Char) :
    afterSlashScan ('/' :: t) = isDotFileList t := by
  simp [afterSlashScan, isDotFileList]

theorem headDotAlt_append_slash (s t : List Char) (h : '/' ∉ s) (hne : t ≠ []) :
    headDotAlt (s ++ '/' :: t) = false := by
  cases s with
  | nil => simp [headDotAlt]
  | cons c cs =>
    have hcs : '/' ∉ cs := fun m => h (List.mem_cons_of_mem _ m)
    simp only [List.cons_append, headDotAlt, dotTail]
    rw [dropWhile_append_of_slashfree cs _ hcs]
    simp [List.dropWhile_cons, hne]

theorem joinSegs_ne_nil (segs : List (List Char)) (h1 : segs ≠ [])
    (h2 : ∀ s ∈ segs, s ≠ []) : joinSegs segs ≠ [] := by
  cases segs with
  | nil => exact absurd rfl h1
  | cons s rest =>
    cases rest with
    | nil => exact h2 s (List.mem_cons_self _ _)
    | cons b r => simp [joinSegs]

/-- C3 (amended): on every key made of non-empty slash-free segments, with
or without one trailing separator, the hidden-file test of line 101
suppresses the entry exactly when the final segment begins with a dot; a
dot-prefixed non-final segment does not by itself suppress the entry. -/
theorem hiddenRuleChecksFinalSegment (segs : List (List Char)) (trail : Bool)
    (h1 : segs ≠ []) (h2 : ∀ s ∈ segs, s ≠ [] ∧ '/' ∉ s) :
    isDotFile ⟨joinSegs segs ++ (if trail then ['/'] else [])⟩ =
      startsDot (segs.getLastD []) := by
  induction segs with
  | nil => exact absurd rfl h1
  | cons s rest ih =>
    cases rest with
    | nil =>
      obtain ⟨hne, hsf⟩ := h2 s (List.mem_cons_self _ _)
      cases s with
      | nil => exact absurd rfl hne
      | cons c cs =>
        have hcs : '/' ∉ cs := fun m => hsf (List.mem_cons_of_mem _ m)
        show isDotFileList ((c :: cs) ++ (if trail then ['/'] else [])) = startsDot (c :: cs)
        unfold isDotFileList
        rw [afterSlashScan_append_of_slashfree _ _ hsf]
        simp only [List.cons_append, headDotAlt, dotTail]
        rw [dropWhile_append_of_slashfree cs _ hcs]
        cases trail <;> simp [afterSlashScan, headDotAlt, startsDot, List.dropWhile_cons]
    | cons b r =>
      obtain ⟨_, hsf⟩ := h2 s (List.mem_cons_self _ _)
      have hrest : ∀ x ∈ b :: r, x ≠ [] ∧ '/' ∉ x :=
        fun x hx => h2 x (List.mem_cons_of_mem _ hx)
      have hJne : joinSegs (b :: r) ≠ [] :=
        joinSegs_ne_nil _ (List.cons_ne_nil _ _) (fun x hx => (hrest x hx).1)
      have hTne : joinSegs (b :: r) ++ (if trail then ['/'] else []) ≠ [] := by
        intro e
        exact hJne (List.append_eq_nil.mp e).1
      have hjoin : joinSegs (s :: b :: r) = s ++ '/' :: joinSegs (b :: r) := rfl
      show isDotFileList (joinSegs (s :: b :: r) ++ (if trail then ['/'] else [])) =
        startsDot ((s :: b :: r).getLastD [])
      rw [hjoin, List.append_assoc, List.cons_append]
      unfold isDotFileList
      rw [headDotAlt_append_slash _ _ hsf hTne,
        afterSlashScan_append_of_slashfree _ _ hsf, afterSlashScan_slash_cons]
      have hlast : (s :: b :: r).getLastD ([] : List Char) = (b :: r).getLastD [] := by
        simp [List.getLastD_cons]
      rw [hlast]
      have := ih (List.cons_ne_nil _ _) hrest
      simp only [Bool.false_or]
      exact this

/-- Witness for C3's amended theorem: `a/.b` is suppressed because its final
segment begins with a dot. -/
theorem hiddenRuleChecksFinalSegmentWitness :
    isDotFile ⟨joinSegs [['a'], ['.', 'b']] ++ (if false then ['/'] else [])⟩ =
      startsDot ([['a'], ['.', 'b']].getLastD []) :=
  hiddenRuleChecksFinalSegment [['a'], ['.', 'b']] false (by decide) (by decide)

/-- Counterexample for C3 as stated: the key `.d/f.txt` has a dot-prefixed
non-final segment, yet the hidden-file test does not match, the partition
loop classifies the entry as a file, and its rendered row is non-empty. -/
theorem hiddenNonFinalSegmentRendered :
    isDotFile ".d/f.txt" = false ∧
    startsDot ".d".data = true ∧
    partitionEntries [⟨".d/f.txt", "upload", 0, 0⟩] =
      ([], [⟨".d/f.txt", "upload", 0, 0⟩]) ∧
    convertFileInfoJsonToHTML "u" ⟨".d/f.txt", "upload", 0, 0⟩ 0 ≠ "" := by
  refine ⟨by decide, by decide, by decide, by decide⟩

/- ---------------------------------------------------------------------- -/
/- C6: breadcrumb links and their cumulative targets                      -/
/- ---------------------------------------------------------------------- -/

theorem splitSlash_append_slash (s : List Char) (rest : List Char) (h : '/' ∉ s) :
    splitSlash (s ++ '/' :: rest) = s :: splitSlash rest := by
  induction s with
  | nil => simp [splitSlash]
  | cons c cs ih =>
    have hc : c ≠ '/' := fun e => h (e ▸ List.mem_cons_self c cs)
    have hcs : '/' ∉ cs := fun m => h (List.mem_cons_of_mem _ m)
    simp [splitSlash, hc, ih hcs]

theorem splitSlash_join (segs : List (List Char)) (h1 : segs ≠ [])
    (h2 : ∀ s ∈ segs, '/' ∉ s) :
    splitSlash (joinSegs segs ++ ['/']) = segs ++ [[]] := by
  induction segs with
  | nil => exact absurd rfl h1
  | cons s rest ih =>
    cases rest with
    | nil =>
      have hs := h2 s (List.mem_cons_self _ _)
      show splitSlash (s ++ '/' :: []) = [s, []]
      rw [splitSlash_append_slash s [] hs]
      rfl
    | cons b r =>
      have hs := h2 s (List.mem_cons_self _ _)
      have hrest : ∀ x ∈ b :: r, '/' ∉ x := fun x hx => h2 x (List.mem_cons_of_mem _ hx)
      have hjoin : joinSegs (s :: b :: r) = s ++ '/' :: joinSegs (b :: r) := rfl
      rw [hjoin, List.append_assoc, List.cons_append,
        splitSlash_append_slash s _ hs, ih (List.cons_ne_nil _ _) hrest]
      rfl

theorem anchor_foldl (body : List String) : ∀ (parent : String)
    (acc : List (String × String)),
    (body.foldl anchorStep (parent, acc)).2 = acc ++ cumulativeAnchors parent body := by
  induction body with
  | nil => intro parent acc; simp [cumulativeAnchors]
  | cons p rest ih =>
    intro parent acc
    simp only [List.foldl_cons, anchorStep, cumulativeAnchors]
    rw [ih]
    simp

/-- C6 (amended): for every non-empty list of slash-free segments, the
breadcrumb loop applied to the path the renderer passes it (the full path
with a leading separator prepended, line 124) yields exactly one link per
segment whose target is the cumulative path up to and including that
segment, rooted at the leading separator and ending in a trailing
separator (so `"a/b/c/"` gives targets `"/a/"`, `"/a/b/"`, `"/a/b/c/"`). -/
theorem breadcrumbCumulativeTargets (segs : List String) (h1 : segs ≠ [])
    (h2 : ∀ s ∈ segs, '/' ∉ s.data) :
    fullPathAnchorsList ("/" ++ joinSegsStr segs ++ "/") = cumulativeAnchors "/" segs := by
  have hmapne : segs.map String.data ≠ [] := by
    intro e
    exact h1 (List.map_eq_nil_iff.mp e)
  have hmapsf : ∀ s ∈ segs.map String.data, '/' ∉ s := by
    intro s hs
    obtain ⟨x, hx, rfl⟩ := List.mem_map.mp hs
    exact h2 x hx
  have hdata : ("/" ++ joinSegsStr segs ++ "/").data =
      '/' :: (joinSegs (segs.map String.data) ++ ['/']) := by
    rw [String.data_append, String.data_append]
    rfl
  unfold fullPathAnchorsList
  rw [hdata]
  have hsplit : splitSlash ('/' :: (joinSegs (segs.map String.data) ++ ['/'])) =
      [] :: (segs.map String.data ++ [[]]) := by
    show (if ('/' : Char) = '/' then [] :: splitSlash (joinSegs (segs.map String.data) ++ ['/'])
      else _) = _
    rw [if_pos rfl, splitSlash_join _ hmapne hmapsf]
  rw [hsplit]
  have hcomp : ((fun l => (⟨l⟩ : String)) ∘ String.data) = id := funext fun _ => rfl
  have hmaps : List.map (fun l => (⟨l⟩ : String)) ([] :: (List.map String.data segs ++ [[]])) =
      ("" : String) :: (segs ++ [("" : String)]) := by
    rw [List.map_cons, List.map_append, List.map_map, hcomp, List.map_id]
    rfl
  rw [hmaps]
  have hbody : ((("" : String) :: (segs ++ [("" : String)])).drop 1).dropLast = segs := by
    simp
  show (List.foldl anchorStep ("/", [])
      ((List.drop 1 (("" : String) :: (segs ++ [("" : String)]))).dropLast)).2 =
    cumulativeAnchors "/" segs
  rw [hbody, anchor_foldl]
  simp

/-- Witness for C6's amended theorem at the segments `a`, `b`, `c`. -/
theorem breadcrumbCumulativeTargetsWitness :
    fullPathAnchorsList ("/" ++ joinSegsStr ["a", "b", "c"] ++ "/") =
      cumulativeAnchors "/" ["a", "b", "c"] :=
  breadcrumbCumulativeTargets ["a", "b", "c"] (by decide) (by decide)

/-- Counterexample for C6 as stated: for the renderer's full path
`"a/b/c/"` the three breadcrumb link targets are `"/a/"`, `"/a/b/"`,
`"/a/b/c/"` — each carrying the leading separator — and not the claimed
`"a/"`, `"a/b/"`, `"a/b/c/"`; applying the builder to `"a/b/c/"` without
the prepended separator matches the claim even less (two links, skipping
the first segment). -/
theorem breadcrumbTargetsAreRooted :
    (fullPathAnchorsList ("/" ++ "a/b/c/")).map Prod.snd = ["/a/", "/a/b/", "/a/b/c/"] ∧
    (fullPathAnchorsList ("/" ++ "a/b/c/")).map Prod.snd ≠ ["a/", "a/b/", "a/b/c/"] ∧
    (fullPathAnchorsList "a/b/c/").map Prod.snd = ["/b/", "/b/c/"] := by
  refine ⟨by decide, by decide, by decide⟩

/- ---------------------------------------------------------------------- -/
/- C2: which empty result sets produce NotFound                           -/
/- ---------------------------------------------------------------------- -/

/-- C2 (amended): the renderer returns the error rewriter's result for an
empty-body 404 exactly when the `.bzEmpty` and hidden-file suppressions
alone leave zero entries; the empty-basename rule runs later, at row-render
time, so entries whose name equals the prefix still count as results. -/
theorem emptyAfterTwoFiltersNotFound (cfg : SiteConfig) (req : Req)
    (files : List B2File) :
    convertListFileNamesToHTML cfg req files = DirOutcome.rewritten req ⟨404, some ""⟩ ↔
      partitionEntries files = ([], []) := by
  unfold convertListFileNamesToHTML
  rcases hp : partitionEntries files with ⟨f1, f2⟩
  cases f1 <;> cases f2 <;> simp

/-- Witness for C2's amended theorem: the empty listing yields the rewritten
empty-body 404. -/
theorem emptyAfterTwoFiltersNotFoundWitness :
    convertListFileNamesToHTML
        ⟨"main.example.com", "dir.example.com", "SITE", "b2api/v2/b2_list_file_names"⟩
        ⟨"dir.example.com", "/docs/"⟩ [] =
      DirOutcome.rewritten ⟨"dir.example.com", "/docs/"⟩ ⟨404, some ""⟩ :=
  (emptyAfterTwoFiltersNotFound _ _ _).mpr rfl

/-- Counterexample for C2 as stated: under the non-empty full path
`"docs/"`, the single entry whose name equals the prefix is removed by the
claim's three suppression rules, yet the renderer answers with a successful
HTML page — the surviving entry's row renders to the empty string, so the
page has zero entry rows — instead of NotFound. -/
theorem prefixMarkerYieldsZeroRowPage :
    ([⟨"docs/", "folder", 0, 0⟩] : List B2File).filter
        (fun f => renderable3 f "docs/") = [] ∧
    isHtml (convertListFileNamesToHTML
        ⟨"main.example.com", "dir.example.com", "SITE", "b2api/v2/b2_list_file_names"⟩
        ⟨"dir.example.com", "/docs/"⟩ [⟨"docs/", "folder", 0, 0⟩]) = true ∧
    convertFileInfoJsonToHTML ("dir.example.com" ++ "/docs/") ⟨"docs/", "folder", 0, 0⟩ 5 = "" := by
  refine ⟨by decide, by decide, by decide⟩

/- ---------------------------------------------------------------------- -/
/- C1: file rows do not link to the content-serving host                  -/
/- ---------------------------------------------------------------------- -/

set_option maxRecDepth 40000 in
/-- C1 (code evaluation at the failing input): `convertFileInfoJsonToHTML`
never reads its `baseUrl` argument, so the row of the file
`docs/readme.txt` is identical whether the caller passes the listing-host
URL or the `MAIN_DOMAIN` URL; the row's link is the relative basename
`readme.txt` — the substring `href="readme.txt"` occurs — and the absolute
object path `/docs/readme.txt` occurs nowhere in the row. -/
theorem fileRowLinksRelativeBasename :
    convertFileInfoJsonToHTML "https://dir.example.com/docs/"
        ⟨"docs/readme.txt", "upload", 1600000000000, 5000⟩ 5 =
      convertFileInfoJsonToHTML "https://main.example.com/docs/"
        ⟨"docs/readme.txt", "upload", 1600000000000, 5000⟩ 5 ∧
    ("href=\"readme.txt\"".data <:+:
      (convertFileInfoJsonToHTML "https://main.example.com/docs/"
        ⟨"docs/readme.txt", "upload", 1600000000000, 5000⟩ 5).data) ∧
    ¬ ("/docs/readme.txt".data <:+:
      (convertFileInfoJsonToHTML "https://main.example.com/docs/"
        ⟨"docs/readme.txt", "upload", 1600000000000, 5000⟩ 5).data) := by
  refine ⟨rfl, by decide, by decide⟩

/- ---------------------------------------------------------------------- -/
/- C10: the href attribute holds the raw basename                         -/
/- ---------------------------------------------------------------------- -/

/-- C10: for every rendered entry — file or folder — the row text decomposes
around `<a href="` followed by the raw basename and the closing quote: the
href attribute value is exactly the basename string, with no HTML-entity
escaping and no URL encoding applied to it. -/
theorem hrefIsRawBasename (u : String) (file : B2File) (p : Nat)
    (h : basenameOf file p ≠ "") :
    ∃ pre post : String,
      convertFileInfoJsonToHTML u file p =
        pre ++ ("<a href=\"" ++ basenameOf file p ++ "\">") ++ post := by
  refine ⟨"\n<tr>\n    <td scope=\"row\">\n        ",
    "<i class=\"fas fa-fw fa-lg fa-" ++
      iconFor (basenameOf file p) (basenameOf file p) file.action ++
      "\" aria-hidden=\"true\"></i> " ++ escapeHtml (basenameOf file p) ++
      "</a>\n    </td>\n    <td class=\"text-right\"><span title=\"" ++
      (lineItemData file).2.2 ++ "\">" ++ (lineItemData file).2.1 ++
      "</span></td>\n    <td class=\"text-right\">" ++ (lineItemData file).1 ++
      "</td>\n</tr>\n", ?_⟩
  unfold convertFileInfoJsonToHTML
  rw [if_neg h]
  unfold HTML_LINE_ITEM TEMPLATE_HTML_LINE_ITEM
  apply String.ext
  simp only [String.data_append, List.append_assoc]

/-- Witness for C10: a basename containing a double quote keeps the quote
verbatim inside the href attribute. -/
theorem hrefIsRawBasenameWitness :
    ('"' ∈ (basenameOf ⟨"a\"b.txt", "upload", 0, 7⟩ 0).data) ∧
    (∃ pre post : String,
      convertFileInfoJsonToHTML "u" ⟨"a\"b.txt", "upload", 0, 7⟩ 0 =
        pre ++ ("<a href=\"" ++ basenameOf ⟨"a\"b.txt", "upload", 0, 7⟩ 0 ++ "\">") ++ post) :=
  ⟨by decide, hrefIsRawBasename "u" ⟨"a\"b.txt", "upload", 0, 7⟩ 0 (by decide)⟩

end B2CDN
